import Mathlib

/-
  Verification of the react-native-appstore-submission-tracker validator.

  Shallow embedding of the JavaScript sources:
    src/src/validator.js          (AppStoreValidator: validate, validateInputs,
                                   runValidationRules, generateSummary)
    src/src/utils (file-parser)   (FileParser.parseIPA entry selection)
    src/src/utils (constants)     (SEVERITY, ValidationResult, REQUIRED_PLIST_KEYS,
                                   PRIVACY_PERMISSION_KEYS)
    src/src/rules/info-plist-rule.js
    src/src/rules/privacy-rule.js
    src/src/cli.js                (getSeverityLevel, exit-code computation)
    reporters (generateConsoleReport passed-rules section)

  Parsed property-list values are modelled as JavaScript-like values
  (JsValue) so that the truthiness tests the code performs with
  "if (plist[key])" are captured exactly, including present-but-falsy
  bindings (empty string, false, 0).
-/

/-- JavaScript-like value as produced by plist.parse: strings, booleans,
numbers, arrays and dictionaries. -/

inductive JsValue where
  | vStr : String → JsValue
  | vBool : Bool → JsValue
  | vNum : Int → JsValue
  | vArr : List JsValue → JsValue
  | vDict : List (String × JsValue) → JsValue
deriving Repr

/-- JavaScript truthiness of a value: empty string, false and 0 are falsy;
arrays and objects are always truthy. -/
def JsValue.truthy : JsValue → Bool
  | .vStr s => !(s == "")
  | .vBool b => b
  | .vNum n => !(n == 0)
  | .vArr _ => true
  | .vDict _ => true

/-- A parsed Info.plist: an association list from keys to values. -/
def Manifest : Type := List (String × JsValue)

/-- Property access plist[key]: the first binding for the key, if any. -/
def getProp (m : Manifest) (k : String) : Option JsValue :=
  List.lookup k m

/-- Truthiness of plist[key]: false when the key is absent (undefined). -/
def truthyProp (m : Manifest) (k : String) : Bool :=
  match getProp m k with
  | some v => v.truthy
  | none => false

/-- Whether plist[key] is present but bound to a falsy value. -/
def presentFalsy (m : Manifest) (k : String) : Bool :=
  match getProp m k with
  | some v => !v.truthy
  | none => false

/-- Whether plist[key] is bound to exactly the string s. -/
def propIsStr (m : Manifest) (k : String) (s : String) : Bool :=
  match getProp m k with
  | some (.vStr t) => t == s
  | _ => false

/-- JavaScript String(x) coercion, as used by template literals and by
RegExp.test on a non-string argument. Arrays join their coerced elements
with commas; plain objects coerce to the fixed object tag. -/
def jsToString : JsValue → String
  | .vStr s => s
  | .vBool b => if b then "true" else "false"
  | .vNum n => toString n
  | .vDict _ => "[object Object]"
  | .vArr [] => ""
  | .vArr [v] => jsToString v
  | .vArr (v :: w :: rest) => jsToString v ++ "," ++ jsToString (.vArr (w :: rest))

/-- JavaScript x.length property access: defined for strings and arrays,
undefined (none) otherwise. -/
def jsLength : JsValue → Option Nat
  | .vStr s => some s.length
  | .vArr l => some l.length
  | _ => none

/-- JavaScript comparison x.length gt n: an undefined length compares false. -/
def jsLenGT (v : JsValue) (n : Nat) : Bool :=
  match jsLength v with
  | some m => decide (n < m)
  | none => false

/-- Rendering of x.length inside a template literal. -/
def jsLengthStr (v : JsValue) : String :=
  match jsLength v with
  | some m => toString m
  | none => "undefined"

/- ### Substring search (JavaScript String.prototype.includes) -/

/-- Whether needle occurs as a contiguous sublist of hay. -/
def hasSub (needle : List Char) : List Char → Bool
  | [] => needle.isEmpty
  | c :: t => needle.isPrefixOf (c :: t) || hasSub needle t

/-- JavaScript hay.includes(needle) for strings. -/
def strContains (hay needle : String) : Bool :=
  hasSub needle.toList hay.toList

/-- JavaScript x.includes(needle): strings search substrings, arrays test
membership via strict equality (so only string elements can match), and
any other receiver raises a TypeError. -/
def jsIncludes (v : JsValue) (needle : String) : Except String Bool :=
  match v with
  | .vStr s => .ok (strContains s needle)
  | .vArr l => .ok (l.any (fun x => match x with | .vStr t => t == needle | _ => false))
  | _ => .error "includes is not a function"

/- ### Archive entry-name pattern matching (FileParser.parseIPA) -/

/-- Strip an expected leading run of characters, returning the remainder. -/
def stripHead (pre l : List Char) : Option (List Char) :=
  match pre, l with
  | [], rest => some rest
  | _ :: _, [] => none
  | a :: pre, b :: l => if a == b then stripHead pre l else none

/-- Strip an expected trailing run of characters, returning the remainder. -/
def stripTail (suf l : List Char) : Option (List Char) :=
  (stripHead suf.reverse l.reverse).map List.reverse

/-- Entry-name test for the main Info.plist inside an .ipa archive,
embedding the regular expression
Payload SLASH [not-slash]+ .app SLASH Info.plist anchored at both ends:
the path is Payload/seg/Info.plist where seg has no slash and is a
nonempty base followed by .app. -/
def isPrimaryInfoPlistPath (p : String) : Bool :=
  match stripHead "Payload/".toList p.toList with
  | none => false
  | some r =>
    match stripTail "/Info.plist".toList r with
    | none => false
    | some seg =>
      match stripTail ".app".toList seg with
      | none => false
      | some base => !base.isEmpty && seg.all (fun c => !(c == '/'))

/-- Full selection predicate of FileParser.parseIPA for the main app
Info.plist entry: the anchored pattern plus the four substring excludes
from the source. -/
def isMainAppInfoPlist (p : String) : Bool :=
  isPrimaryInfoPlistPath p &&
  !(strContains p ".bundle/") &&
  !(strContains p ".framework/") &&
  !(strContains p "PlugIns/") &&
  !(strContains p "Watch/")

/-- Entry scan of parseIPA: every matching entry overwrites the previously
extracted Info.plist, so the last matching entry name wins. -/
def selectInfoPlistEntry (entries : List String) : Option String :=
  entries.foldl (fun acc e => if isMainAppInfoPlist e then some e else acc) none

/-- Result of parseIPA restricted to main-manifest selection: the chosen
entry name, or the end-of-archive rejection when no entry matched. -/
def parseIPAInfoPlist (entries : List String) : Except String String :=
  match selectInfoPlistEntry entries with
  | some e => .ok e
  | none => .error "Main app Info.plist not found in IPA file"

/- ### Constants and ValidationResult (src/src/utils constants) -/

/-- Severity constants from the SEVERITY object. -/
def SEVERITY_CRITICAL : String := "CRITICAL"

def SEVERITY_HIGH : String := "HIGH"

def SEVERITY_MEDIUM : String := "MEDIUM"

def SEVERITY_LOW : String := "LOW"

def SEVERITY_INFO : String := "INFO"

/-- One validation finding, mirroring the ValidationResult class field for
field. The constructor stamps the wall clock into the timestamp field; the
clock reading is made an explicit argument of every embedded producer. -/
structure ValidationResult where
  rule : String
  severity : String
  message : String
  details : Option String
  fix : Option String
  fixType : String
  timestamp : String
deriving Repr, DecidableEq

/-- Required Info.plist keys (REQUIRED_PLIST_KEYS). -/
def REQUIRED_PLIST_KEYS : List String :=
  ["CFBundleIdentifier",
   "CFBundleName",
   "CFBundleDisplayName",
   "CFBundleVersion",
   "CFBundleShortVersionString",
   "LSRequiresIPhoneOS"]

/-- Privacy-sensitive permission keys (PRIVACY_PERMISSION_KEYS). -/
def PRIVACY_PERMISSION_KEYS : List String :=
  ["NSCameraUsageDescription",
   "NSLocationWhenInUseUsageDescription",
   "NSLocationAlwaysAndWhenInUseUsageDescription",
   "NSPhotoLibraryUsageDescription",
   "NSPhotoLibraryAddUsageDescription",
   "NSMicrophoneUsageDescription",
   "NSContactsUsageDescription",
   "NSCalendarsUsageDescription",
   "NSRemindersUsageDescription",
   "NSMotionUsageDescription",
   "NSHealthUpdateUsageDescription",
   "NSHealthShareUsageDescription",
   "NSBluetoothAlwaysUsageDescription",
   "NSBluetoothPeripheralUsageDescription",
   "NSUserTrackingUsageDescription",
   "NSSpeechRecognitionUsageDescription",
   "NSFaceIDUsageDescription",
   "NSLocalNetworkUsageDescription"]

/-- Version thresholds from IOS_SUPPORT. -/
def IOS_SUPPORT_MINIMUM_SUPPORTED : String := "12.0"

def IOS_SUPPORT_RECOMMENDED_MINIMUM : String := "14.0"

def IOS_SUPPORT_LATEST_SDK_REQUIRED : String := "18.0"

/- ### Regular-expression tests used by the info-plist rule -/

/-- Character class a-z A-Z 0-9 dot hyphen of the bundle-identifier test. -/
def isBundleIdChar (c : Char) : Bool :=
  (c ≥ 'a' && c ≤ 'z') || (c ≥ 'A' && c ≤ 'Z') || (c ≥ '0' && c ≤ '9') || c == '.' || c == '-'

/-- Anchored one-or-more test of the bundle-identifier character class. -/
def testBundleIdFormat (s : String) : Bool :=
  !(s == "") && s.toList.all isBundleIdChar

/-- Anchored digits-dot-digits version test: one or more groups of one or
more ASCII digits separated by single dots. -/
def testVersionFormat (s : String) : Bool :=
  (s.splitOn ".").all (fun p => !(p == "") && p.toList.all Char.isDigit)

/-- Character sequence of an anchored URL-scheme test: a letter followed
by letters, digits, plus, dot or hyphen. -/
def urlSchemeCharsOk : List Char → Bool
  | [] => false
  | c :: rest =>
    ((c ≥ 'a' && c ≤ 'z') || (c ≥ 'A' && c ≤ 'Z')) &&
    rest.all (fun d =>
      (d ≥ 'a' && d ≤ 'z') || (d ≥ 'A' && d ≤ 'Z') || (d ≥ '0' && d ≤ '9') ||
      d == '+' || d == '.' || d == '-')

/-- The URL-scheme regular-expression test on a string. -/
def testUrlScheme (s : String) : Bool :=
  urlSchemeCharsOk s.toList

/- ### parseFloat model for the minimum-OS-version checks -/

/-- Numeric value of a run of ASCII digits. -/
def natOfDigits (l : List Char) : Nat :=
  l.foldl (fun n c => 10 * n + (c.toNat - '0'.toNat)) 0

/-- Model of JavaScript parseFloat on the version strings the rule reads:
optional sign, integer digits, optional fraction digits; trailing junk is
ignored; no parse at all yields NaN (none). -/
def parseFloatQ (s : String) : Option ℚ :=
  let l := s.toList.dropWhile (fun c => c == ' ')
  let signed : Bool × List Char :=
    match l with
    | '-' :: rest => (true, rest)
    | '+' :: rest => (false, rest)
    | _ => (false, l)
  let ds := signed.2.takeWhile Char.isDigit
  let rest := signed.2.dropWhile Char.isDigit
  let fds : List Char :=
    match rest with
    | '.' :: r => r.takeWhile Char.isDigit
    | _ => []
  if ds.isEmpty && fds.isEmpty then none
  else
    let ip : ℚ := (natOfDigits ds : ℚ)
    let fp : ℚ := (natOfDigits fds : ℚ) / ((10 : ℚ) ^ fds.length)
    let v := ip + fp
    some (if signed.1 then -v else v)

/-- Comparison a lt b where either side may be NaN (none): NaN compares false. -/
def optLtOpt (a b : Option ℚ) : Bool :=
  match a, b with
  | some x, some y => decide (x < y)
  | _, _ => false

/- ### InfoPlistValidationRule (src/src/rules/info-plist-rule.js) -/

/-- Name of the rule. -/
def INFO_PLIST_RULE : String := "info-plist-validation"

/-- JavaScript for-of iteration: arrays yield elements, strings yield
single-character strings, any other value raises a TypeError. -/
def jsIterate : JsValue → Except String (List JsValue)
  | .vArr l => .ok l
  | .vStr s => .ok (s.toList.map (fun c => JsValue.vStr (String.mk [c])))
  | _ => .error "is not iterable"

/-- JavaScript property access x.k on an arbitrary value: objects look the
key up, every other receiver yields undefined. -/
def jsGetProp : JsValue → String → Option JsValue
  | .vDict m, k => List.lookup k m
  | _, _ => none

/-- Required-key loop: one Critical finding for every required key whose
value is absent or falsy, in REQUIRED_PLIST_KEYS order. -/
def missingKeyResult (now k : String) : ValidationResult :=
  { rule := INFO_PLIST_RULE
    severity := SEVERITY_CRITICAL
    message := "Missing required key: " ++ k
    details := some ("Info.plist is missing the required " ++ k ++ " key")
    fix := some ("Add " ++ k ++ " to your Info.plist file")
    fixType := "fix"
    timestamp := now }

def requiredKeyFindings (now : String) (plist : Manifest) : List ValidationResult :=
  REQUIRED_PLIST_KEYS.filterMap (fun k =>
    if truthyProp plist k then none
    else some (missingKeyResult now k))

/-- Bundle-identifier section: charset test, length test, then the
consecutive-dot test whose includes call can raise a TypeError on
non-string, non-array identifiers. -/
def bundleIdSection (now : String) (plist : Manifest) : Except String (List ValidationResult) :=
  match getProp plist "CFBundleIdentifier" with
  | none => .ok []
  | some v =>
    if v.truthy then
      let f1 : List ValidationResult :=
        if !(testBundleIdFormat (jsToString v)) then
          [{ rule := INFO_PLIST_RULE
             severity := SEVERITY_HIGH
             message := "Invalid bundle identifier format"
             details := some ("Bundle ID contains invalid characters: " ++ jsToString v)
             fix := some "Use reverse-DNS notation with only letters, numbers, dots, and hyphens"
             fixType := "fix"
             timestamp := now }]
        else []
      let f2 : List ValidationResult :=
        if jsLenGT v 255 then
          [{ rule := INFO_PLIST_RULE
             severity := SEVERITY_HIGH
             message := "Bundle identifier too long"
             details := some ("Bundle ID exceeds 255 characters: " ++ jsLengthStr v)
             fix := some "Shorten your bundle identifier to 255 characters or less"
             fixType := "fix"
             timestamp := now }]
        else []
      match jsIncludes v ".." with
      | .error e => .error e
      | .ok dd =>
        let f3 : List ValidationResult :=
          if dd then
            [{ rule := INFO_PLIST_RULE
               severity := SEVERITY_HIGH
               message := "Invalid bundle identifier format"
               details := some "Bundle ID contains consecutive dots"
               fix := some "Remove consecutive dots from bundle identifier"
               fixType := "fix"
               timestamp := now }]
          else []
        .ok (f1 ++ f2 ++ f3)
    else .ok []

/-- Marketing-version section (CFBundleShortVersionString). -/
def shortVersionSection (now : String) (plist : Manifest) : List ValidationResult :=
  match getProp plist "CFBundleShortVersionString" with
  | none => []
  | some v =>
    if v.truthy && !(testVersionFormat (jsToString v)) then
      [{ rule := INFO_PLIST_RULE
         severity := SEVERITY_HIGH
         message := "Invalid marketing version format"
         details := some ("Version should follow semantic versioning: " ++ jsToString v)
         fix := some "Use format like 1.0.0 or 2.1"
         fixType := "fix"
         timestamp := now }]
    else []

/-- Build-number section (CFBundleVersion). -/
def buildVersionSection (now : String) (plist : Manifest) : List ValidationResult :=
  match getProp plist "CFBundleVersion" with
  | none => []
  | some v =>
    if v.truthy && !(testVersionFormat (jsToString v)) then
      [{ rule := INFO_PLIST_RULE
         severity := SEVERITY_HIGH
         message := "Invalid build number format"
         details := some ("Build number should be numeric: " ++ jsToString v)
         fix := some "Use numeric build numbers like 1, 42, or 1.0"
         fixType := "fix"
         timestamp := now }]
    else []

/-- Minimum-OS-version section: the JavaScript or of the two keys yields
the first truthy value, else the second value (possibly undefined). -/
def minOSVersionValue (plist : Manifest) : Option JsValue :=
  if truthyProp plist "MinimumOSVersion" then getProp plist "MinimumOSVersion"
  else getProp plist "LSMinimumSystemVersion"

/-- Minimum-OS-version checks against the IOS_SUPPORT thresholds via
parseFloat; NaN comparisons are false. -/
def minOSSection (now : String) (plist : Manifest) : List ValidationResult :=
  match minOSVersionValue plist with
  | none => []
  | some v =>
    if v.truthy then
      let minQ := parseFloatQ (jsToString v)
      let lows : List ValidationResult :=
        if optLtOpt minQ (parseFloatQ IOS_SUPPORT_MINIMUM_SUPPORTED) then
          [{ rule := INFO_PLIST_RULE
             severity := SEVERITY_MEDIUM
             message := "Very low minimum iOS version"
             details := some ("Minimum iOS version " ++ jsToString v ++ " is below recommended "
               ++ IOS_SUPPORT_MINIMUM_SUPPORTED)
             fix := some ("Consider raising minimum iOS version to "
               ++ IOS_SUPPORT_RECOMMENDED_MINIMUM ++ " for better security and features")
             fixType := "fix"
             timestamp := now }]
        else []
      let highs : List ValidationResult :=
        if optLtOpt (parseFloatQ IOS_SUPPORT_LATEST_SDK_REQUIRED) minQ then
          [{ rule := INFO_PLIST_RULE
             severity := SEVERITY_HIGH
             message := "Minimum iOS version too high"
             details := some ("Minimum iOS version " ++ jsToString v ++ " exceeds latest SDK "
               ++ IOS_SUPPORT_LATEST_SDK_REQUIRED)
             fix := some "Lower the minimum iOS version to a supported version"
             fixType := "fix"
             timestamp := now }]
        else []
      lows ++ highs
    else []

/-- App display-name length section. -/
def displayNameSection (now : String) (plist : Manifest) : List ValidationResult :=
  match getProp plist "CFBundleDisplayName" with
  | none => []
  | some v =>
    if v.truthy && jsLenGT v 30 then
      [{ rule := INFO_PLIST_RULE
         severity := SEVERITY_HIGH
         message := "App display name too long"
         details := some ("Display name exceeds 30 characters: " ++ jsLengthStr v)
         fix := some "Shorten the app display name to 30 characters or less"
         fixType := "fix"
         timestamp := now }]
    else []

/-- URL-scheme findings of one CFBundleURLTypes element. -/
def urlSchemeFindings (now : String) (urlType : JsValue) : Except String (List ValidationResult) :=
  match jsGetProp urlType "CFBundleURLSchemes" with
  | none => .ok []
  | some schemesV =>
    if schemesV.truthy then
      match jsIterate schemesV with
      | .error e => .error e
      | .ok schemes =>
        .ok (schemes.filterMap (fun sch =>
          if !(testUrlScheme (jsToString sch)) then
            some
              { rule := INFO_PLIST_RULE
                severity := SEVERITY_MEDIUM
                message := "Invalid URL scheme format"
                details := some ("URL scheme contains invalid characters: " ++ jsToString sch)
                fix := some ("URL schemes must start with a letter and contain only letters, "
                  ++ "numbers, +, -, and .")
                fixType := "fix"
                timestamp := now }
          else none))
    else .ok []

/-- URL-types section: iterate CFBundleURLTypes, accumulating scheme
findings, aborting on the first iteration TypeError. -/
def urlTypesSection (now : String) (plist : Manifest) : Except String (List ValidationResult) :=
  match getProp plist "CFBundleURLTypes" with
  | none => .ok []
  | some v =>
    if v.truthy then
      match jsIterate v with
      | .error e => .error e
      | .ok types =>
        types.foldlM (fun acc t =>
          match urlSchemeFindings now t with
          | .error e => .error e
          | .ok fs => .ok (acc ++ fs)) []
    else .ok []

/-- File-sharing section: strict equality with true. -/
def fileSharingSection (now : String) (plist : Manifest) : List ValidationResult :=
  match getProp plist "UIFileSharingEnabled" with
  | some (.vBool true) =>
    [{ rule := INFO_PLIST_RULE
       severity := SEVERITY_MEDIUM
       message := "File sharing enabled"
       details := some "UIFileSharingEnabled is set to true"
       fix := some "Consider if file sharing is necessary for production app"
       fixType := "fix"
       timestamp := now }]
  | _ => []

/-- Development-metadata section (DTXcode). -/
def dtxcodeSection (now : String) (plist : Manifest) : List ValidationResult :=
  if truthyProp plist "DTXcode" then
    [{ rule := INFO_PLIST_RULE
       severity := SEVERITY_INFO
       message := "Development metadata present"
       details := some "Info.plist contains development-time metadata"
       fix := some "This is normal for development builds"
       fixType := "fix"
       timestamp := now }]
  else []

/-- Allowed UIRequiredDeviceCapabilities values. -/
def validCapabilities : List String :=
  ["accelerometer", "auto-focus-camera", "bluetooth-le", "camera-flash",
   "front-facing-camera", "gamekit", "gps", "gyroscope", "location-services",
   "magnetometer", "microphone", "nfc", "opengles-1", "opengles-2", "opengles-3",
   "peer-peer", "still-camera", "telephony", "video-camera", "wifi", "metal"]

/-- Device-capabilities section: iterate the declared capabilities; a
capability matches the allowed list only when it is one of its strings
(strict-equality membership). -/
def capabilitiesSection (now : String) (plist : Manifest) : Except String (List ValidationResult) :=
  match getProp plist "UIRequiredDeviceCapabilities" with
  | none => .ok []
  | some v =>
    if v.truthy then
      match jsIterate v with
      | .error e => .error e
      | .ok caps =>
        .ok (caps.filterMap (fun c =>
          let known : Bool := match c with | .vStr s => validCapabilities.contains s | _ => false
          if !known then
            some
              { rule := INFO_PLIST_RULE
                severity := SEVERITY_MEDIUM
                message := "Unknown device capability"
                details := some ("Unknown capability: " ++ jsToString c)
                fix := some "Remove unknown capabilities or verify they are valid"
                fixType := "fix"
                timestamp := now }
          else none))
    else .ok []

/-- InfoPlistValidationRule.validate: the null-manifest Critical finding,
otherwise the concatenation of all sections in source order. A thrown
TypeError from the identifier, URL-types or capabilities section aborts
the rule (its partial findings are discarded), in source evaluation
order. -/
def infoPlistValidate (now : String) (plistOpt : Option Manifest) :
    Except String (List ValidationResult) :=
  match plistOpt with
  | none =>
    .ok [{ rule := INFO_PLIST_RULE
           severity := SEVERITY_CRITICAL
           message := "Info.plist not found or could not be parsed"
           details := some "The Info.plist file is required for all iOS apps"
           fix := some "Ensure Info.plist exists in your app bundle and is valid XML"
           fixType := "fix"
           timestamp := now }]
  | some plist =>
    match bundleIdSection now plist with
    | .error e => .error e
    | .ok bid =>
      match urlTypesSection now plist with
      | .error e => .error e
      | .ok url =>
        match capabilitiesSection now plist with
        | .error e => .error e
        | .ok caps =>
          .ok (requiredKeyFindings now plist ++ bid
            ++ shortVersionSection now plist ++ buildVersionSection now plist
            ++ minOSSection now plist ++ displayNameSection now plist
            ++ url ++ fileSharingSection now plist ++ dtxcodeSection now plist ++ caps)

/-- Findings of a successful rule evaluation (empty on a thrown fault). -/
def okFindings (x : Except String (List ValidationResult)) : List ValidationResult :=
  match x with
  | .ok l => l
  | .error _ => []

/-- Sample manifest lacking CFBundleIdentifier. -/
def manifestMissingId : Manifest := [("CFBundleName", JsValue.vStr "TestApp")]

/-- Sample manifest whose LSRequiresIPhoneOS is present but false. -/
def manifestFalsyKey : Manifest := [("LSRequiresIPhoneOS", JsValue.vBool false)]

/-- Fixed clock reading used by concrete witnesses. -/
def witnessNow : String := "2024-01-01T00:00:00.000Z"

/-- Identifier manifest used by the C7 witness, mirroring the repository
test fixture with spaces in the bundle identifier. -/
def manifestBadId : Manifest :=
  [("CFBundleIdentifier", JsValue.vStr "invalid bundle id with spaces!")]

/- ### PrivacyComplianceRule.checkPrivacyManifest (src/src/rules/privacy-rule.js) -/

/-- Name of the privacy rule. -/
def PRIVACY_RULE : String := "privacy-compliance"

/-- The six keys the rule actually consults when deciding whether a
privacy manifest is required (a strict subset of
PRIVACY_PERMISSION_KEYS). -/
def privacySensitiveKeys : List String :=
  ["NSCameraUsageDescription",
   "NSLocationWhenInUseUsageDescription",
   "NSLocationAlwaysAndWhenInUseUsageDescription",
   "NSUserTrackingUsageDescription",
   "NSFaceIDUsageDescription",
   "NSContactsUsageDescription"]

/-- determineIfPrivacyManifestRequired: true when some of the six keys is
bound to a truthy value; false on a null manifest. -/
def determineIfPrivacyManifestRequired (plistOpt : Option Manifest) : Bool :=
  match plistOpt with
  | none => false
  | some plist => privacySensitiveKeys.any (fun k => truthyProp plist k)

/-- The High finding for a missing privacy manifest. -/
def privacyManifestMissingHigh (now : String) : ValidationResult :=
  { rule := PRIVACY_RULE
    severity := SEVERITY_HIGH
    message := "Privacy manifest file (PrivacyInfo.xcprivacy) not found"
    details := some "Required for apps using privacy-impacting APIs as of May 2024"
    fix := some "Add PrivacyInfo.xcprivacy to your app bundle root directory"
    fixType := "fix"
    timestamp := now }

/-- The Info finding for a missing but likely optional privacy manifest. -/
def privacyManifestMissingInfo (now : String) : ValidationResult :=
  { rule := PRIVACY_RULE
    severity := SEVERITY_INFO
    message := "Privacy manifest not found, but may not be required"
    details := some "Your app may not use privacy-impacting APIs that require a manifest"
    fix := some ("Review if your app uses required reason APIs: "
      ++ "https://developer.apple.com/documentation/bundleresources/privacy_manifest_files")
    fixType := "fix"
    timestamp := now }

/-- The Low finding produced when the presence probe itself throws. -/
def privacyManifestProbeError (now msg : String) : ValidationResult :=
  { rule := PRIVACY_RULE
    severity := SEVERITY_LOW
    message := "Could not verify privacy manifest presence"
    details := some ("Error checking for privacy manifest: " ++ msg)
    fix := some "Manually verify PrivacyInfo.xcprivacy exists in your app bundle"
    fixType := "fix"
    timestamp := now }

/-- checkPrivacyManifest with the file-system or archive probe for the
PrivacyInfo.xcprivacy artifact abstracted into its outcome: found, not
found, or thrown error. On a found artifact the method returns null; on a
missing one the severity depends on determineIfPrivacyManifestRequired. -/
def checkPrivacyManifest (now : String) (probe : Except String Bool)
    (plistOpt : Option Manifest) : Option ValidationResult :=
  match probe with
  | .error msg => some (privacyManifestProbeError now msg)
  | .ok true => none
  | .ok false =>
    if !(determineIfPrivacyManifestRequired plistOpt) then
      some (privacyManifestMissingInfo now)
    else
      some (privacyManifestMissingHigh now)

/-- Manifest whose only privacy-sensitive permission key is the microphone
one, which is in PRIVACY_PERMISSION_KEYS but not among the six keys the
rule consults. -/
def manifestMicOnly : Manifest :=
  [("NSMicrophoneUsageDescription",
    JsValue.vStr "Audio is recorded for voice memos and transcription features")]

/-- Manifest with a camera usage description, one of the six consulted
keys. -/
def manifestCamera : Manifest :=
  [("NSCameraUsageDescription",
    JsValue.vStr "The camera scans documents so they can be archived as searchable PDFs")]

/- ### Summary (AppStoreValidator.generateSummary) and the console
passed-rules section (reporters) -/

/-- Value stored in a summary field. -/
inductive SummaryValue where
  | num : Nat → SummaryValue
  | str : String → SummaryValue
  | strList : List String → SummaryValue
deriving Repr, DecidableEq

/-- Count of findings with a given severity. -/
def countSeverity (results : List ValidationResult) (sev : String) : Nat :=
  (results.filter (fun r => r.severity == sev)).length

/-- generateSummary, field for field as the object literal in the source:
severity counts, the build path, the clock reading and the executed rule
names. No other field is produced. -/
def generateSummary (results : List ValidationResult) (buildPath : String)
    (now : String) (rulesRun : List String) : List (String × SummaryValue) :=
  [("total", .num results.length),
   ("critical", .num (countSeverity results SEVERITY_CRITICAL)),
   ("high", .num (countSeverity results SEVERITY_HIGH)),
   ("medium", .num (countSeverity results SEVERITY_MEDIUM)),
   ("low", .num (countSeverity results SEVERITY_LOW)),
   ("info", .num (countSeverity results SEVERITY_INFO)),
   ("buildPath", .str buildPath),
   ("timestamp", .str now),
   ("rulesRun", .strList rulesRun)]

/-- Guard of the passed-validations block in generateConsoleReport:
summary.passedRules must be truthy and have positive length. -/
def consoleShowsPassedSection (summary : List (String × SummaryValue)) : Bool :=
  match List.lookup "passedRules" summary with
  | some (.strList l) => decide (0 < l.length)
  | some (.str s) => !(s == "") && decide (0 < s.length)
  | some (.num _) => false
  | none => false

/- ### Validation engine (AppStoreValidator.validate and
runValidationRules) -/

/-- A thrown JavaScript Error: its message and its stack trace. -/
structure JsError where
  message : String
  stack : String
deriving Repr, DecidableEq

/-- Model of new Error(msg): the stack trace begins with the message line. -/
def mkJsError (msg : String) : JsError :=
  { message := msg, stack := "Error: " ++ msg }

/-- A rule evaluation over a context: a finding list, or a thrown error. -/
def RuleFun (α : Type) : Type :=
  α → Except JsError (List ValidationResult)

/-- The Medium finding recorded when a rule evaluation throws. -/
def ruleFailureResult (now name : String) (e : JsError) : ValidationResult :=
  { rule := name
    severity := SEVERITY_MEDIUM
    message := "Rule execution failed: " ++ e.message
    details := some e.stack
    fix := some "Check rule implementation or file a bug report"
    fixType := "fix"
    timestamp := now }

/-- runValidationRules: iterate the registered rules in order, appending
each successful evaluation and converting each thrown fault into the
Medium rule-failure finding, never aborting the loop. -/
def runValidationRules {α : Type} (now : String) (rules : List (String × RuleFun α))
    (ctx : α) : List ValidationResult :=
  rules.foldl (fun results nr =>
    match nr.2 ctx with
    | .ok ruleResults => results ++ ruleResults
    | .error e => results ++ [ruleFailureResult now nr.1 e]) []

/-- Findings contributed by one rule in the loop. -/
def ruleOutcome {α : Type} (now : String) (ctx : α) (nr : String × RuleFun α) :
    List ValidationResult :=
  match nr.2 ctx with
  | .ok rs => rs
  | .error e => [ruleFailureResult now nr.1 e]

/-- A rule that succeeds with a fixed finding, for the C5 witness. -/
def witnessOkRule : RuleFun Unit := fun _ => .ok [privacyManifestMissingInfo witnessNow]

/-- A rule that throws, for the C5 witness. -/
def witnessThrowRule : RuleFun Unit := fun _ => .error (mkJsError "boom")

/- ### Top-level entry point (AppStoreValidator.validate) -/

/-- File-system facts about the build path: existence and the stat shape. -/
structure BuildPathInfo where
  pathExists : Bool
  isDirectory : Bool
  isFile : Bool
deriving Repr, DecidableEq

/-- JavaScript String.prototype.endsWith. -/
def strEndsWith (s suf : String) : Bool :=
  suf.toList.isSuffixOf s.toList

/-- validateInputs: called by validate OUTSIDE its try block, so these
errors are thrown to the caller rather than converted into findings. -/
def validateInputs (fsi : BuildPathInfo) (buildPath : String) : Except JsError Unit :=
  if !fsi.pathExists then
    .error (mkJsError ("Build path does not exist: " ++ buildPath))
  else
    let isValidBuild := (fsi.isDirectory && strEndsWith buildPath ".app")
      || (fsi.isFile && strEndsWith buildPath ".ipa")
    if !isValidBuild then
      .error (mkJsError "Build path must be either a .app directory or .ipa file")
    else .ok ()

/-- parseBuildArtifacts rethrows any extraction error wrapped in its own
message. The underlying extraction outcome is the explicit argument. -/
def wrapExtractError (e : JsError) : JsError :=
  mkJsError ("Failed to parse build artifacts: " ++ e.message)

def parseBuildArtifacts (extract : Except JsError Manifest) : Except JsError Manifest :=
  match extract with
  | .ok m => .ok m
  | .error e => .error (wrapExtractError e)

/-- The synthetic SYSTEM Critical finding of the validate catch block. -/
def systemCriticalResult (now : String) (e : JsError) : ValidationResult :=
  { rule := "SYSTEM"
    severity := SEVERITY_CRITICAL
    message := "Validation failed: " ++ e.message
    details := some e.stack
    fix := none
    fixType := "fix"
    timestamp := now }

/-- loadMetadata catches its own errors and degrades them into a Medium
finding, leaving the run alive. The file read outcome is the explicit
argument. -/
def loadMetadataFindings (now : String) (metadataPath : Option String)
    (metadataRead : Except JsError Unit) : List ValidationResult :=
  match metadataPath with
  | none => []
  | some p =>
    match metadataRead with
    | .ok _ => []
    | .error e =>
      [{ rule := "METADATA_LOADING"
         severity := SEVERITY_MEDIUM
         message := "Failed to load metadata: " ++ e.message
         details := some ("Path: " ++ p)
         fix := none
         fixType := "fix"
         timestamp := now }]

/-- The report produced by generateReport, before rendering: the finding
sequence and the derived summary. -/
structure Report where
  results : List ValidationResult
  summary : List (String × SummaryValue)
deriving Repr, DecidableEq

/-- AppStoreValidator.validate: input validation outside the try block
(errors propagate), then extraction inside it (errors caught and turned
into the single synthetic Critical finding on a fresh results list), then
metadata loading and the rule loop, then the report. -/
def validate (now : String) (fsi : BuildPathInfo) (buildPath : String)
    (extract : Except JsError Manifest) (metadataPath : Option String)
    (metadataRead : Except JsError Unit)
    (rules : List (String × RuleFun (Option Manifest))) : Except JsError Report :=
  match validateInputs fsi buildPath with
  | .error e => .error e
  | .ok _ =>
    match parseBuildArtifacts extract with
    | .error e =>
      .ok { results := [systemCriticalResult now e]
            summary := generateSummary [systemCriticalResult now e] buildPath now
              (rules.map Prod.fst) }
    | .ok m =>
      let results := loadMetadataFindings now metadataPath metadataRead
        ++ runValidationRules now rules (some m)
      .ok { results := results
            summary := generateSummary results buildPath now (rules.map Prod.fst) }

/- ### CLI exit-code computation (src/src/cli.js) -/

/-- JavaScript String.prototype.toUpperCase, character by character. -/
def jsToUpperCase (s : String) : String :=
  String.mk (s.toList.map Char.toUpper)

/-- getSeverityLevel: uppercase the severity, then look it up in the fixed
level table; INFO and every unknown value map to 0 (the JavaScript
or-zero fallback). -/
def getSeverityLevel (severity : String) : Nat :=
  let up := jsToUpperCase severity
  if up == "CRITICAL" then 4
  else if up == "HIGH" then 3
  else if up == "MEDIUM" then 2
  else if up == "LOW" then 1
  else 0

/-- hasFailures of runValidation: some finding sits at or above the
configured threshold. -/
def hasFailures (results : List ValidationResult) (failOn : String) : Bool :=
  results.any (fun r => decide (getSeverityLevel failOn ≤ getSeverityLevel r.severity))

/-- The process exit signal: 1 when failures exist, else 0. -/
def exitCode (results : List ValidationResult) (failOn : String) : Nat :=
  if hasFailures results failOn then 1 else 0

/- ### Clock dependence of the pipeline (claim C9) -/

/-- Erase the constructor timestamp of a finding, keeping every other
field. -/
def stripTs (r : ValidationResult) : ValidationResult :=
  { r with timestamp := "" }

/-- A thrown TypeError: message plus its stack line. -/
def mkTypeError (msg : String) : JsError :=
  { message := msg, stack := "TypeError: " ++ msg }

/-- The info-plist rule as registered in the engine: its TypeErrors become
thrown JsErrors. -/
def infoPlistRuleFun (now : String) : RuleFun (Option Manifest) :=
  fun plistOpt =>
    match infoPlistValidate now plistOpt with
    | .ok l => .ok l
    | .error msg => .error (mkTypeError msg)

/-- A representative registry: the info-plist rule, fully embedded. -/
def sampleRegistry (now : String) : List (String × RuleFun (Option Manifest)) :=
  [(INFO_PLIST_RULE, infoPlistRuleFun now)]

/-- Finding sequence of a produced report; empty when validate threw. -/
def resultsOfReport (x : Except JsError Report) : List ValidationResult :=
  match x with
  | .ok rep => rep.results
  | .error _ => []

/-- One full engine run against a package at a given clock reading. -/
def pipelineResults (now : String) (fsi : BuildPathInfo) (buildPath : String)
    (extract : Except JsError Manifest) (metadataPath : Option String)
    (metadataRead : Except JsError Unit) : List ValidationResult :=
  resultsOfReport
    (validate now fsi buildPath extract metadataPath metadataRead (sampleRegistry now))

/-- A needle is always found at the end of a string that has it as suffix. -/
theorem hasSub_append (pre needle : List Char) : hasSub needle (pre ++ needle) = true := by
  induction pre with
  | nil =>
    cases needle with
    | nil => rfl
    | cons c t => simp [hasSub]
  | cons c t ih => simp [hasSub, ih]

/-- Corollary at the String level, for messages built as a constant prefix
followed by the interesting payload. -/
theorem strContains_append (a b : String) : strContains (a ++ b) b = true := by
  have h : (a ++ b).toList = a.toList ++ b.toList := by
    simp [String.toList]
  simp [strContains, h, hasSub_append]

theorem stripHead_iff (pre l r : List Char) :
    stripHead pre l = some r ↔ l = pre ++ r := by
  induction pre generalizing l with
  | nil => simp [stripHead]
  | cons a pre ih =>
    cases l with
    | nil => simp [stripHead]
    | cons b l =>
      by_cases hab : a = b
      · subst hab
        simp [stripHead, ih]
      · simp [stripHead, hab, Ne.symm hab]

theorem stripHead_self_append (pre r : List Char) : stripHead pre (pre ++ r) = some r :=
  (stripHead_iff pre (pre ++ r) r).mpr rfl

theorem stripTail_iff (suf l r : List Char) :
    stripTail suf l = some r ↔ l = r ++ suf := by
  constructor
  · intro h
    simp only [stripTail, Option.map_eq_some'] at h
    obtain ⟨a, ha, har⟩ := h
    rw [stripHead_iff] at ha
    have h2 : l.reverse.reverse = (suf.reverse ++ a).reverse := by rw [ha]
    simpa [← har] using h2
  · intro h
    subst h
    simp [stripTail, List.reverse_append, stripHead_self_append]

theorem selectInfoPlistEntry_sound (entries : List String) (acc : Option String) (e : String)
    (h : entries.foldl (fun acc e => if isMainAppInfoPlist e then some e else acc) acc = some e) :
    acc = some e ∨ (e ∈ entries ∧ isMainAppInfoPlist e = true) := by
  induction entries generalizing acc with
  | nil => exact Or.inl h
  | cons x t ih =>
    simp only [List.foldl_cons] at h
    rcases ih _ h with hacc | ⟨hmem, hsel⟩
    · by_cases hx : isMainAppInfoPlist x = true
      · simp only [hx, if_true] at hacc
        have hxe : x = e := Option.some_inj.mp hacc
        subst hxe
        exact Or.inr ⟨List.mem_cons_self x t, hx⟩
      · rw [if_neg hx] at hacc
        exact Or.inl hacc
    · exact Or.inr ⟨List.mem_cons_of_mem x hmem, hsel⟩

theorem selectInfoPlistEntry_none (entries : List String)
    (h : ∀ e ∈ entries, isMainAppInfoPlist e = false) :
    selectInfoPlistEntry entries = none := by
  unfold selectInfoPlistEntry
  induction entries with
  | nil => rfl
  | cons x t ih =>
    simp only [List.foldl_cons, h x (List.mem_cons_self x t), Bool.false_eq_true, if_false]
    exact ih (fun e he => h e (List.mem_cons_of_mem x he))

/-- Structural characterization of a matching path. -/
theorem isPrimaryInfoPlistPath_iff (p : String) :
    isPrimaryInfoPlistPath p = true ↔
      ∃ base : List Char, base ≠ [] ∧
        (∀ c ∈ base ++ ".app".toList, c ≠ '/') ∧
        p.toList = "Payload/".toList ++ (base ++ ".app".toList) ++ "/Info.plist".toList := by
  constructor
  · intro h
    unfold isPrimaryInfoPlistPath at h
    cases hh : stripHead "Payload/".toList p.toList with
    | none => rw [hh] at h; exact absurd h (by simp)
    | some r =>
      rw [hh] at h
      dsimp only at h
      cases ht : stripTail "/Info.plist".toList r with
      | none => rw [ht] at h; exact absurd h (by simp)
      | some seg =>
        rw [ht] at h
        dsimp only at h
        cases ta : stripTail ".app".toList seg with
        | none => rw [ta] at h; exact absurd h (by simp)
        | some base =>
          rw [ta] at h
          dsimp only at h
          simp only [Bool.and_eq_true, Bool.not_eq_true'] at h
          refine ⟨base, by simpa using h.1, ?_, ?_⟩
          · intro c hc
            have hseg : seg = base ++ ".app".toList := (stripTail_iff _ _ _).mp ta
            have h2 := h.2
            rw [List.all_eq_true] at h2
            have hcseg : c ∈ seg := by rw [hseg]; exact hc
            have h3 := h2 c hcseg
            simpa using h3
          · have h1 : p.toList = "Payload/".toList ++ r := (stripHead_iff _ _ _).mp hh
            have h2 : r = seg ++ "/Info.plist".toList := (stripTail_iff _ _ _).mp ht
            have h3 : seg = base ++ ".app".toList := (stripTail_iff _ _ _).mp ta
            rw [h1, h2, h3]
            simp [List.append_assoc]
  · rintro ⟨base, hne, hns, hdecomp⟩
    unfold isPrimaryInfoPlistPath
    have hh : stripHead "Payload/".toList p.toList
        = some ((base ++ ".app".toList) ++ "/Info.plist".toList) := by
      rw [stripHead_iff, hdecomp, List.append_assoc]
    rw [hh]
    dsimp only
    have ht : stripTail "/Info.plist".toList ((base ++ ".app".toList) ++ "/Info.plist".toList)
        = some (base ++ ".app".toList) := by
      rw [stripTail_iff]
    rw [ht]
    dsimp only
    have ta : stripTail ".app".toList (base ++ ".app".toList) = some base := by
      rw [stripTail_iff]
    rw [ta]
    dsimp only
    simp only [Bool.and_eq_true, Bool.not_eq_true', List.all_eq_true]
    constructor
    · simpa [List.isEmpty_iff] using hne
    · intro c hc
      simpa using hns c hc

/-- Claim C2: for every archive input, extraction selects as the primary
manifest only an entry shaped Payload/Name.app/Info.plist at the top level
of the primary component (never one nested under a plugin, framework,
watch or resource-bundle path), in any entry order; and if no such primary
entry exists after scanning all entries, extraction fails with the
manifest-missing error. -/
theorem parseIPA_selects_primary_manifest (entries : List String) :
    (∀ e, parseIPAInfoPlist entries = .ok e →
      e ∈ entries ∧
      (∃ base : List Char, base ≠ [] ∧
        (∀ c ∈ base ++ ".app".toList, c ≠ '/') ∧
        e.toList = "Payload/".toList ++ (base ++ ".app".toList) ++ "/Info.plist".toList) ∧
      strContains e ".bundle/" = false ∧
      strContains e ".framework/" = false ∧
      strContains e "PlugIns/" = false ∧
      strContains e "Watch/" = false) ∧
    ((∀ e ∈ entries, isPrimaryInfoPlistPath e = false) →
      parseIPAInfoPlist entries = .error "Main app Info.plist not found in IPA file") := by
  constructor
  · intro e he
    unfold parseIPAInfoPlist at he
    cases hsel : selectInfoPlistEntry entries with
    | none => rw [hsel] at he; exact absurd he (by simp)
    | some x =>
      rw [hsel] at he
      have hxe : x = e := by
        have : Except.ok (ε := String) x = Except.ok e := he
        injection this
      subst hxe
      have hsound := selectInfoPlistEntry_sound entries none x hsel
      rcases hsound with hbad | ⟨hmem, hsel2⟩
      · exact absurd hbad (by simp)
      · simp only [isMainAppInfoPlist, Bool.and_eq_true, Bool.not_eq_true'] at hsel2
        obtain ⟨⟨⟨⟨hshape, hb⟩, hf⟩, hp⟩, hw⟩ := hsel2
        exact ⟨hmem, (isPrimaryInfoPlistPath_iff x).mp hshape, hb, hf, hp, hw⟩
  · intro hno
    have hfull : ∀ e ∈ entries, isMainAppInfoPlist e = false := by
      intro e he
      unfold isMainAppInfoPlist
      rw [hno e he]
      simp
    unfold parseIPAInfoPlist
    rw [selectInfoPlistEntry_none entries hfull]

/-- Witness for C2 at a concrete archive in which a nested plugin manifest
appears before the primary manifest. -/
theorem parseIPA_selects_primary_manifest_witness :
    "Payload/MyApp.app/Info.plist" ∈
      (["Payload/MyApp.app/PlugIns/Share.appex/Info.plist",
        "Payload/MyApp.app/Info.plist"] : List String) ∧
    (∃ base : List Char, base ≠ [] ∧
      (∀ c ∈ base ++ ".app".toList, c ≠ '/') ∧
      "Payload/MyApp.app/Info.plist".toList
        = "Payload/".toList ++ (base ++ ".app".toList) ++ "/Info.plist".toList) ∧
    strContains "Payload/MyApp.app/Info.plist" ".bundle/" = false ∧
    strContains "Payload/MyApp.app/Info.plist" ".framework/" = false ∧
    strContains "Payload/MyApp.app/Info.plist" "PlugIns/" = false ∧
    strContains "Payload/MyApp.app/Info.plist" "Watch/" = false :=
  (parseIPA_selects_primary_manifest
    ["Payload/MyApp.app/PlugIns/Share.appex/Info.plist",
     "Payload/MyApp.app/Info.plist"]).1 "Payload/MyApp.app/Info.plist" (by rfl)

theorem propIsStr_eq (m : Manifest) (k s : String) (h : propIsStr m k s = true) :
    getProp m k = some (.vStr s) := by
  unfold propIsStr at h
  cases hg : getProp m k with
  | none => rw [hg] at h; exact absurd h (by simp)
  | some v =>
    rw [hg] at h
    cases v with
    | vStr t =>
      have : t = s := by simpa using h
      rw [this]
    | vBool b => exact absurd h (by simp)
    | vNum n => exact absurd h (by simp)
    | vArr l => exact absurd h (by simp)
    | vDict d => exact absurd h (by simp)

/-- Decomposition of a successful run of the info-plist rule into its
sections. -/
theorem infoPlistValidate_ok (now : String) (plist : Manifest) (res : List ValidationResult)
    (h : infoPlistValidate now (some plist) = .ok res) :
    ∃ bid url caps,
      bundleIdSection now plist = .ok bid ∧
      urlTypesSection now plist = .ok url ∧
      capabilitiesSection now plist = .ok caps ∧
      res = requiredKeyFindings now plist ++ bid
        ++ shortVersionSection now plist ++ buildVersionSection now plist
        ++ minOSSection now plist ++ displayNameSection now plist
        ++ url ++ fileSharingSection now plist ++ dtxcodeSection now plist ++ caps := by
  unfold infoPlistValidate at h
  dsimp only at h
  cases hbid : bundleIdSection now plist with
  | error e => rw [hbid] at h; exact absurd h (by simp)
  | ok bid =>
    rw [hbid] at h
    dsimp only at h
    cases hurl : urlTypesSection now plist with
    | error e => rw [hurl] at h; exact absurd h (by simp)
    | ok url =>
      rw [hurl] at h
      dsimp only at h
      cases hcaps : capabilitiesSection now plist with
      | error e => rw [hcaps] at h; exact absurd h (by simp)
      | ok caps =>
        rw [hcaps] at h
        dsimp only at h
        exact ⟨bid, url, caps, rfl, rfl, rfl, (Except.ok.inj h).symm⟩

/-- Any required key whose binding is absent or falsy yields its Critical
finding in the output of a completed run. -/
theorem requiredKey_finding_of_not_truthy (now : String) (plist : Manifest)
    (res : List ValidationResult) (k : String)
    (hk : k ∈ REQUIRED_PLIST_KEYS) (hnt : truthyProp plist k = false)
    (hok : infoPlistValidate now (some plist) = .ok res) :
    ∃ r ∈ res, r.severity = SEVERITY_CRITICAL ∧
      r.message = "Missing required key: " ++ k ∧ strContains r.message k = true := by
  obtain ⟨bid, url, caps, _, _, _, hres⟩ := infoPlistValidate_ok now plist res hok
  refine ⟨missingKeyResult now k, ?_, rfl, rfl, strContains_append _ _⟩
  have hmem : missingKeyResult now k ∈ requiredKeyFindings now plist := by
    rw [requiredKeyFindings, List.mem_filterMap]
    exact ⟨k, hk, by simp [hnt]⟩
  rw [hres]
  simp only [List.mem_append]
  exact Or.inl (Or.inl (Or.inl (Or.inl (Or.inl (Or.inl (Or.inl (Or.inl (Or.inl hmem))))))))

/-- Claim C8: every successfully parsed manifest lacking one of the six
required keys makes the info-plist rule emit at least one Critical finding
whose message names that key, provided the rule run completes. -/
theorem infoPlist_missing_required_key_critical (now : String) (plist : Manifest)
    (res : List ValidationResult) (k : String)
    (hk : k ∈ REQUIRED_PLIST_KEYS) (habs : (getProp plist k).isNone = true)
    (hok : infoPlistValidate now (some plist) = .ok res) :
    ∃ r ∈ res, r.severity = SEVERITY_CRITICAL ∧
      r.message = "Missing required key: " ++ k ∧ strContains r.message k = true := by
  apply requiredKey_finding_of_not_truthy now plist res k hk _ hok
  unfold truthyProp
  rw [Option.isNone_iff_eq_none] at habs
  rw [habs]

/-- Witness for C8 on a manifest holding only CFBundleName. -/
theorem infoPlist_missing_required_key_critical_witness :
    ∃ r ∈ okFindings (infoPlistValidate witnessNow (some manifestMissingId)),
      r.severity = SEVERITY_CRITICAL ∧
      r.message = "Missing required key: " ++ "CFBundleIdentifier" ∧
      strContains r.message "CFBundleIdentifier" = true :=
  infoPlist_missing_required_key_critical witnessNow manifestMissingId _ "CFBundleIdentifier"
    (by decide) (by decide) rfl

/-- Claim C10: a required key present but bound to a falsy value (empty
string, false, 0) is reported exactly like an absent key: a Critical
missing-required-key finding naming it. -/
theorem infoPlist_falsy_required_key_critical (now : String) (plist : Manifest)
    (res : List ValidationResult) (k : String)
    (hk : k ∈ REQUIRED_PLIST_KEYS) (hfalsy : presentFalsy plist k = true)
    (hok : infoPlistValidate now (some plist) = .ok res) :
    ∃ r ∈ res, r.severity = SEVERITY_CRITICAL ∧
      r.message = "Missing required key: " ++ k ∧ strContains r.message k = true := by
  apply requiredKey_finding_of_not_truthy now plist res k hk _ hok
  unfold presentFalsy at hfalsy
  unfold truthyProp
  cases hg : getProp plist k with
  | none => rfl
  | some v =>
    rw [hg] at hfalsy
    simpa using hfalsy

/-- Witness for C10 on a manifest where LSRequiresIPhoneOS is exactly false. -/
theorem infoPlist_falsy_required_key_critical_witness :
    ∃ r ∈ okFindings (infoPlistValidate witnessNow (some manifestFalsyKey)),
      r.severity = SEVERITY_CRITICAL ∧
      r.message = "Missing required key: " ++ "LSRequiresIPhoneOS" ∧
      strContains r.message "LSRequiresIPhoneOS" = true :=
  infoPlist_falsy_required_key_critical witnessNow manifestFalsyKey _ "LSRequiresIPhoneOS"
    (by decide) (by decide) rfl

theorem missingKeyResult_message (now k : String) :
    (missingKeyResult now k).message = "Missing required key: " ++ k := rfl

theorem requiredKeyFindings_message (now : String) (plist : Manifest) (r : ValidationResult)
    (h : r ∈ requiredKeyFindings now plist) :
    r.message ≠ "Invalid bundle identifier format" := by
  rw [requiredKeyFindings, List.mem_filterMap] at h
  obtain ⟨k, hk, hr⟩ := h
  by_cases ht : truthyProp plist k = true
  · rw [if_pos ht] at hr; cases hr
  · rw [if_neg ht] at hr
    have hrk : missingKeyResult now k = r := Option.some.inj hr
    subst hrk
    fin_cases hk <;> rw [missingKeyResult_message] <;> decide

theorem shortVersionSection_message (now : String) (plist : Manifest) (r : ValidationResult)
    (h : r ∈ shortVersionSection now plist) :
    r.message = "Invalid marketing version format" := by
  unfold shortVersionSection at h
  cases hg : getProp plist "CFBundleShortVersionString" with
  | none => rw [hg] at h; simp at h
  | some v =>
    rw [hg] at h
    dsimp only at h
    split at h
    · rw [List.mem_singleton] at h
      rw [h]
    · simp at h

theorem buildVersionSection_message (now : String) (plist : Manifest) (r : ValidationResult)
    (h : r ∈ buildVersionSection now plist) :
    r.message = "Invalid build number format" := by
  unfold buildVersionSection at h
  cases hg : getProp plist "CFBundleVersion" with
  | none => rw [hg] at h; simp at h
  | some v =>
    rw [hg] at h
    dsimp only at h
    split at h
    · rw [List.mem_singleton] at h
      rw [h]
    · simp at h

theorem minOSSection_message (now : String) (plist : Manifest) (r : ValidationResult)
    (h : r ∈ minOSSection now plist) :
    r.message = "Very low minimum iOS version" ∨ r.message = "Minimum iOS version too high" := by
  unfold minOSSection at h
  cases hg : minOSVersionValue plist with
  | none => rw [hg] at h; simp at h
  | some v =>
    rw [hg] at h
    dsimp only at h
    split at h
    · rw [List.mem_append] at h
      rcases h with h | h <;> split at h <;> simp at h <;> rw [h]
      · exact Or.inl rfl
      · exact Or.inr rfl
    · simp at h

theorem displayNameSection_message (now : String) (plist : Manifest) (r : ValidationResult)
    (h : r ∈ displayNameSection now plist) :
    r.message = "App display name too long" := by
  unfold displayNameSection at h
  cases hg : getProp plist "CFBundleDisplayName" with
  | none => rw [hg] at h; simp at h
  | some v =>
    rw [hg] at h
    dsimp only at h
    split at h
    · rw [List.mem_singleton] at h
      rw [h]
    · simp at h

theorem fileSharingSection_message (now : String) (plist : Manifest) (r : ValidationResult)
    (h : r ∈ fileSharingSection now plist) :
    r.message = "File sharing enabled" := by
  unfold fileSharingSection at h
  split at h
  · rw [List.mem_singleton] at h
    rw [h]
  · simp at h

theorem dtxcodeSection_message (now : String) (plist : Manifest) (r : ValidationResult)
    (h : r ∈ dtxcodeSection now plist) :
    r.message = "Development metadata present" := by
  unfold dtxcodeSection at h
  split at h
  · rw [List.mem_singleton] at h
    rw [h]
  · simp at h

theorem urlSchemeFindings_message (now : String) (t : JsValue) (fs : List ValidationResult)
    (h : urlSchemeFindings now t = .ok fs) :
    ∀ r ∈ fs, r.message = "Invalid URL scheme format" := by
  unfold urlSchemeFindings at h
  cases hg : jsGetProp t "CFBundleURLSchemes" with
  | none =>
    rw [hg] at h
    dsimp only at h
    have : ([] : List ValidationResult) = fs := Except.ok.inj h
    subst this
    intro r hr
    simp at hr
  | some sv =>
    rw [hg] at h
    dsimp only at h
    split at h
    · cases hi : jsIterate sv with
      | error e => rw [hi] at h; cases h
      | ok schemes =>
        rw [hi] at h
        dsimp only at h
        have hfs := Except.ok.inj h
        subst hfs
        intro r hr
        rw [List.mem_filterMap] at hr
        obtain ⟨sch, _, hsch⟩ := hr
        split at hsch
        · have := Option.some.inj hsch
          rw [← this]
        · cases hsch
    · have : ([] : List ValidationResult) = fs := Except.ok.inj h
      subst this
      intro r hr
      simp at hr

theorem urlFold_message (now : String) (types : List JsValue) (acc out : List ValidationResult)
    (hacc : ∀ r ∈ acc, r.message = "Invalid URL scheme format")
    (h : types.foldlM (fun (acc : List ValidationResult) (t : JsValue) =>
          match urlSchemeFindings now t with
          | Except.error e => (Except.error e : Except String (List ValidationResult))
          | Except.ok fs => Except.ok (acc ++ fs)) acc = .ok out) :
    ∀ r ∈ out, r.message = "Invalid URL scheme format" := by
  induction types generalizing acc with
  | nil =>
    rw [List.foldlM_nil] at h
    have : acc = out := Except.ok.inj h
    subst this
    exact hacc
  | cons t ts ih =>
    rw [List.foldlM_cons] at h
    cases hu : urlSchemeFindings now t with
    | error e =>
      rw [hu] at h
      simp only [Except.bind] at h
      cases h
    | ok fs =>
      rw [hu] at h
      simp only [Except.bind] at h
      apply ih (acc ++ fs) _ h
      intro r hr
      rw [List.mem_append] at hr
      rcases hr with hr | hr
      · exact hacc r hr
      · exact urlSchemeFindings_message now t fs hu r hr

theorem urlTypesSection_message (now : String) (plist : Manifest) (url : List ValidationResult)
    (h : urlTypesSection now plist = .ok url) :
    ∀ r ∈ url, r.message = "Invalid URL scheme format" := by
  unfold urlTypesSection at h
  cases hg : getProp plist "CFBundleURLTypes" with
  | none =>
    rw [hg] at h
    dsimp only at h
    have : ([] : List ValidationResult) = url := Except.ok.inj h
    subst this
    intro r hr
    simp at hr
  | some v =>
    rw [hg] at h
    dsimp only at h
    split at h
    · cases hi : jsIterate v with
      | error e => rw [hi] at h; cases h
      | ok types =>
        rw [hi] at h
        dsimp only at h
        exact urlFold_message now types [] url (by intro r hr; simp at hr) h
    · have : ([] : List ValidationResult) = url := Except.ok.inj h
      subst this
      intro r hr
      simp at hr

theorem capabilitiesSection_message (now : String) (plist : Manifest)
    (caps : List ValidationResult) (h : capabilitiesSection now plist = .ok caps) :
    ∀ r ∈ caps, r.message = "Unknown device capability" := by
  unfold capabilitiesSection at h
  cases hg : getProp plist "UIRequiredDeviceCapabilities" with
  | none =>
    rw [hg] at h
    dsimp only at h
    have : ([] : List ValidationResult) = caps := Except.ok.inj h
    subst this
    intro r hr
    simp at hr
  | some v =>
    rw [hg] at h
    dsimp only at h
    split at h
    · cases hi : jsIterate v with
      | error e => rw [hi] at h; cases h
      | ok cs =>
        rw [hi] at h
        dsimp only at h
        have hcaps := Except.ok.inj h
        subst hcaps
        intro r hr
        rw [List.mem_filterMap] at hr
        obtain ⟨c, _, hc⟩ := hr
        split at hc
        · have := Option.some.inj hc
          rw [← this]
        · cases hc
    · have : ([] : List ValidationResult) = caps := Except.ok.inj h
      subst this
      intro r hr
      simp at hr

theorem testBundleIdFormat_false_of_bad_char (s : String) (c : Char)
    (hc : c ∈ s.toList) (hcf : isBundleIdChar c = false) :
    testBundleIdFormat s = false := by
  unfold testBundleIdFormat
  have hall : s.toList.all isBundleIdChar = false := by
    rw [← Bool.not_eq_true, List.all_eq_true]
    intro hforall
    have := hforall c hc
    rw [hcf] at this
    cases this
  rw [hall]
  simp

theorem truthy_vStr_of_mem (s : String) (c : Char) (hc : c ∈ s.toList) :
    (JsValue.vStr s).truthy = true := by
  unfold JsValue.truthy
  by_cases he : s = ""
  · subst he; simp at hc
  · simp [he]

theorem bundleIdSection_invalid_char (now : String) (plist : Manifest) (s : String)
    (hid : getProp plist "CFBundleIdentifier" = some (.vStr s))
    (c : Char) (hc : c ∈ s.toList) (hcf : isBundleIdChar c = false) :
    ∃ bid, bundleIdSection now plist = .ok bid ∧
      ∃ r ∈ bid, r.severity = SEVERITY_HIGH ∧
        r.message = "Invalid bundle identifier format" := by
  unfold bundleIdSection
  rw [hid]
  dsimp only
  rw [if_pos (truthy_vStr_of_mem s c hc)]
  have hjs : jsToString (JsValue.vStr s) = s := by simp [jsToString]
  have hf1 : testBundleIdFormat (jsToString (.vStr s)) = false := by
    rw [hjs]
    exact testBundleIdFormat_false_of_bad_char s c hc hcf
  dsimp only [jsIncludes]
  refine ⟨_, rfl, ?_⟩
  rw [hf1]
  refine ⟨{ rule := INFO_PLIST_RULE
            severity := SEVERITY_HIGH
            message := "Invalid bundle identifier format"
            details := some ("Bundle ID contains invalid characters: " ++ jsToString (.vStr s))
            fix := some "Use reverse-DNS notation with only letters, numbers, dots, and hyphens"
            fixType := "fix"
            timestamp := now }, ?_, rfl, rfl⟩
  simp only [List.mem_append]
  exact Or.inl (Or.inl (by simp))

theorem bundleIdSection_valid (now : String) (plist : Manifest) (s : String)
    (hid : getProp plist "CFBundleIdentifier" = some (.vStr s))
    (h1 : testBundleIdFormat s = true) (h2 : s.length ≤ 255)
    (h3 : strContains s ".." = false) :
    bundleIdSection now plist = .ok [] := by
  unfold bundleIdSection
  rw [hid]
  dsimp only
  have hne : ¬(s = "") := by
    intro he
    rw [testBundleIdFormat, he] at h1
    simp at h1
  rw [if_pos (by simp [JsValue.truthy, hne])]
  have hlen : jsLenGT (JsValue.vStr s) 255 = false := by
    simp only [jsLenGT, jsLength]
    simpa using h2
  dsimp only [jsIncludes]
  have hjs : jsToString (JsValue.vStr s) = s := by simp [jsToString]
  rw [hjs, h1, hlen, h3]
  simp

/-- Claim C7: when the bundle identifier is a string containing a character
outside the allowed charset, the rule emits a High finding with message
Invalid bundle identifier format; and when the identifier matches the
anchored charset test with length at most 255 and no consecutive dots, no
finding with that message is emitted by any section of the rule. -/
theorem infoPlist_bundleId_format (now : String) (plist : Manifest) (s : String)
    (res : List ValidationResult)
    (hid : propIsStr plist "CFBundleIdentifier" s = true)
    (hok : infoPlistValidate now (some plist) = .ok res) :
    ((∃ c ∈ s.toList, isBundleIdChar c = false) →
      ∃ r ∈ res, r.severity = SEVERITY_HIGH ∧
        r.message = "Invalid bundle identifier format") ∧
    (testBundleIdFormat s = true → s.length ≤ 255 → strContains s ".." = false →
      ∀ r ∈ res, r.message ≠ "Invalid bundle identifier format") := by
  have hid2 := propIsStr_eq plist "CFBundleIdentifier" s hid
  obtain ⟨bid, url, caps, hbid, hurl, hcaps, hres⟩ := infoPlistValidate_ok now plist res hok
  constructor
  · rintro ⟨c, hc, hcf⟩
    obtain ⟨bid2, hbid2, r, hrbid, hsev, hmsg⟩ :=
      bundleIdSection_invalid_char now plist s hid2 c hc hcf
    have hb : bid2 = bid := by
      rw [hbid] at hbid2
      exact (Except.ok.inj hbid2).symm
    subst hb
    refine ⟨r, ?_, hsev, hmsg⟩
    rw [hres]
    simp only [List.mem_append]
    exact Or.inl (Or.inl (Or.inl (Or.inl (Or.inl (Or.inl (Or.inl (Or.inl (Or.inr hrbid))))))))
  · intro h1 h2 h3 r hr
    have hb0 : bundleIdSection now plist = .ok [] :=
      bundleIdSection_valid now plist s hid2 h1 h2 h3
    have hb : bid = ([] : List ValidationResult) := by
      rw [hbid] at hb0
      exact Except.ok.inj hb0
    subst hb
    rw [hres] at hr
    simp only [List.mem_append] at hr
    rcases hr with (((((((((h | h) | h) | h) | h) | h) | h) | h) | h) | h)
    · exact requiredKeyFindings_message now plist r h
    · simp at h
    · rw [shortVersionSection_message now plist r h]; decide
    · rw [buildVersionSection_message now plist r h]; decide
    · rcases minOSSection_message now plist r h with h2 | h2 <;> rw [h2] <;> decide
    · rw [displayNameSection_message now plist r h]; decide
    · rw [urlTypesSection_message now plist url hurl r h]; decide
    · rw [fileSharingSection_message now plist r h]; decide
    · rw [dtxcodeSection_message now plist r h]; decide
    · rw [capabilitiesSection_message now plist caps hcaps r h]; decide

/-- Witness for C7 at a concrete identifier containing whitespace. -/
theorem infoPlist_bundleId_format_witness :
    ∃ r ∈ okFindings (infoPlistValidate witnessNow (some manifestBadId)),
      r.severity = SEVERITY_HIGH ∧
      r.message = "Invalid bundle identifier format" :=
  (infoPlist_bundleId_format witnessNow manifestBadId "invalid bundle id with spaces!" _
    (by decide) rfl).1 (by decide)

/-- Counterexample to claim C3: a manifest carrying a privacy-sensitive
permission key (microphone) whose missing privacy manifest yields only the
Info finding, not the claimed High finding. -/
theorem privacy_missing_manifest_counterexample :
    "NSMicrophoneUsageDescription" ∈ PRIVACY_PERMISSION_KEYS ∧
    truthyProp manifestMicOnly "NSMicrophoneUsageDescription" = true ∧
    checkPrivacyManifest witnessNow (.ok false) (some manifestMicOnly)
      = some (privacyManifestMissingInfo witnessNow) ∧
    (privacyManifestMissingInfo witnessNow).severity = SEVERITY_INFO :=
  ⟨by decide, by decide, rfl, rfl⟩

/-- Claim C3 (amended): with the privacy artifact absent, the rule emits
the High not-found finding iff one of the six keys it consults is truthy,
and in every other case (no consulted key truthy, whatever the remaining
privacy-permission keys hold) exactly the Info finding; in particular a
manifest with no privacy-sensitive permission key at all gets only the
Info finding. -/
theorem privacy_missing_manifest_severity (now : String) (plist : Manifest) :
    (checkPrivacyManifest now (.ok false) (some plist)
        = some (privacyManifestMissingHigh now)
      ↔ ∃ k ∈ privacySensitiveKeys, truthyProp plist k = true) ∧
    ((∀ k ∈ privacySensitiveKeys, truthyProp plist k = false) →
      checkPrivacyManifest now (.ok false) (some plist)
        = some (privacyManifestMissingInfo now)) ∧
    (privacyManifestMissingHigh now).severity = SEVERITY_HIGH ∧
    (privacyManifestMissingHigh now).message
      = "Privacy manifest file (PrivacyInfo.xcprivacy) not found" ∧
    (privacyManifestMissingInfo now).severity = SEVERITY_INFO := by
  have hchar : determineIfPrivacyManifestRequired (some plist) = true ↔
      ∃ k ∈ privacySensitiveKeys, truthyProp plist k = true := by
    unfold determineIfPrivacyManifestRequired
    rw [List.any_eq_true]
  by_cases hreq : determineIfPrivacyManifestRequired (some plist) = true
  · refine ⟨?_, ?_, rfl, rfl, rfl⟩
    · constructor
      · intro _
        exact hchar.mp hreq
      · intro _
        simp [checkPrivacyManifest, hreq]
    · intro hnone
      obtain ⟨k, hk, hkt⟩ := hchar.mp hreq
      rw [hnone k hk] at hkt
      cases hkt
  · have hreqf : determineIfPrivacyManifestRequired (some plist) = false :=
      Bool.eq_false_iff.mpr hreq
    have hinfo : checkPrivacyManifest now (.ok false) (some plist)
        = some (privacyManifestMissingInfo now) := by
      simp [checkPrivacyManifest, hreqf]
    refine ⟨?_, fun _ => hinfo, rfl, rfl, rfl⟩
    constructor
    · intro habs
      rw [hinfo] at habs
      have hsame := Option.some.inj habs
      have hsev := congrArg ValidationResult.severity hsame
      rw [show (privacyManifestMissingInfo now).severity = SEVERITY_INFO from rfl,
        show (privacyManifestMissingHigh now).severity = SEVERITY_HIGH from rfl] at hsev
      exact absurd hsev (by decide)
    · intro hex
      exact absurd (hchar.mpr hex) hreq

/-- Witness for the amended C3 on a camera-permission manifest (High), an
empty manifest (Info), and the microphone-only manifest whose only
privacy-sensitive key is outside the six consulted ones (still Info). -/
theorem privacy_missing_manifest_severity_witness :
    checkPrivacyManifest witnessNow (.ok false) (some manifestCamera)
        = some (privacyManifestMissingHigh witnessNow) ∧
    checkPrivacyManifest witnessNow (.ok false) (some ([] : Manifest))
        = some (privacyManifestMissingInfo witnessNow) ∧
    checkPrivacyManifest witnessNow (.ok false) (some manifestMicOnly)
        = some (privacyManifestMissingInfo witnessNow) :=
  ⟨(privacy_missing_manifest_severity witnessNow manifestCamera).1.mpr
      ⟨"NSCameraUsageDescription", by decide, by decide⟩,
   (privacy_missing_manifest_severity witnessNow ([] : Manifest)).2.1 (by decide),
   (privacy_missing_manifest_severity witnessNow manifestMicOnly).2.1 (by decide)⟩

theorem runRules_foldl_aux {α : Type} (now : String) (ctx : α)
    (rules : List (String × RuleFun α)) (init : List ValidationResult) :
    rules.foldl (fun results nr =>
      match nr.2 ctx with
      | .ok ruleResults => results ++ ruleResults
      | .error e => results ++ [ruleFailureResult now nr.1 e]) init
    = init ++ rules.flatMap (ruleOutcome now ctx) := by
  induction rules generalizing init with
  | nil => simp
  | cons r rs ih =>
    rw [List.foldl_cons, List.flatMap_cons, ih]
    cases h : r.2 ctx with
    | ok l => simp [ruleOutcome, h]
    | error e => simp [ruleOutcome, h]

theorem runValidationRules_eq_flatMap {α : Type} (now : String) (ctx : α)
    (rules : List (String × RuleFun α)) :
    runValidationRules now rules ctx = rules.flatMap (ruleOutcome now ctx) := by
  unfold runValidationRules
  rw [runRules_foldl_aux]
  simp

/-- Claim C5: when one rule throws, the engine records exactly the Medium
rule-failure finding attributed to that rule (message carrying the thrown
error message), in place, while the contributions of every rule before and
after it are exactly what they would be on their own; the loop is total,
so the run still completes. -/
theorem rule_fault_isolated {α : Type} (now : String) (pre post : List (String × RuleFun α))
    (name : String) (r : RuleFun α) (ctx : α) (e : JsError)
    (hthrow : r ctx = .error e) :
    runValidationRules now (pre ++ (name, r) :: post) ctx
      = runValidationRules now pre ctx
        ++ ruleFailureResult now name e :: runValidationRules now post ctx ∧
    (ruleFailureResult now name e).severity = SEVERITY_MEDIUM ∧
    (ruleFailureResult now name e).rule = name ∧
    strContains (ruleFailureResult now name e).message e.message = true := by
  refine ⟨?_, rfl, rfl, strContains_append _ _⟩
  rw [runValidationRules_eq_flatMap, runValidationRules_eq_flatMap,
    runValidationRules_eq_flatMap, List.flatMap_append, List.flatMap_cons]
  have houtcome : ruleOutcome now ctx (name, r) = [ruleFailureResult now name e] := by
    unfold ruleOutcome
    dsimp only
    rw [hthrow]
  rw [houtcome]
  simp

/-- Witness for C5 on a concrete three-rule registry whose middle rule
throws. -/
theorem rule_fault_isolated_witness :
    runValidationRules witnessNow
        ([("rule-a", witnessOkRule)] ++ ("rule-b", witnessThrowRule) :: [("rule-c", witnessOkRule)]) ()
      = runValidationRules witnessNow [("rule-a", witnessOkRule)] ()
        ++ ruleFailureResult witnessNow "rule-b" (mkJsError "boom")
          :: runValidationRules witnessNow [("rule-c", witnessOkRule)] () ∧
    (ruleFailureResult witnessNow "rule-b" (mkJsError "boom")).severity = SEVERITY_MEDIUM ∧
    (ruleFailureResult witnessNow "rule-b" (mkJsError "boom")).rule = "rule-b" ∧
    strContains (ruleFailureResult witnessNow "rule-b" (mkJsError "boom")).message
      (mkJsError "boom").message = true :=
  rule_fault_isolated witnessNow [("rule-a", witnessOkRule)] [("rule-c", witnessOkRule)]
    "rule-b" witnessThrowRule () (mkJsError "boom") rfl

/-- Counterexample to claim C4: a run in which the privacy rule executed
and produced zero findings, yet the computed summary carries no
passedRules field at all, so the console passed-validations section never
renders. -/
theorem generateSummary_no_passedRules_counterexample :
    List.lookup "passedRules"
      (generateSummary [missingKeyResult witnessNow "CFBundleIdentifier"] "Sample.app"
        witnessNow ["info-plist-validation", "privacy-compliance"]) = none ∧
    consoleShowsPassedSection
      (generateSummary [missingKeyResult witnessNow "CFBundleIdentifier"] "Sample.app"
        witnessNow ["info-plist-validation", "privacy-compliance"]) = false :=
  ⟨rfl, rfl⟩

/-- Claim C4 (amended): the summary computed at report time carries
exactly the severity counts, the total, the build path, the timestamp and
the executed-rules echo; it contains no passedRules list, and the console
report passed-validations block is therefore never shown. -/
theorem generateSummary_fields (results : List ValidationResult) (buildPath : String)
    (now : String) (rulesRun : List String) :
    (generateSummary results buildPath now rulesRun).map Prod.fst
      = ["total", "critical", "high", "medium", "low", "info",
         "buildPath", "timestamp", "rulesRun"] ∧
    List.lookup "passedRules" (generateSummary results buildPath now rulesRun) = none ∧
    List.lookup "rulesRun" (generateSummary results buildPath now rulesRun)
      = some (.strList rulesRun) ∧
    consoleShowsPassedSection (generateSummary results buildPath now rulesRun) = false :=
  ⟨rfl, rfl, rfl, rfl⟩

/-- Counterexample to claim C1: at a nonexistent build path the top-level
validate raises (the promise rejects with the input error); no report is
returned. -/
theorem validate_invalid_input_counterexample :
    validate witnessNow ⟨false, false, false⟩ "missing.ipa" (.ok ([] : Manifest)) none
        (.ok ()) []
      = .error (mkJsError ("Build path does not exist: " ++ "missing.ipa")) := rfl

/-- Claim C1 (amended): with a valid input path, an extraction failure is
caught and the returned report holds exactly one synthetic SYSTEM Critical
finding whose message contains the underlying error message and whose
details carry the thrown stack trace; invalid input path or shape instead
propagates as a thrown error (see the counterexample). -/
theorem validate_extraction_failure (now : String) (fsi : BuildPathInfo) (buildPath : String)
    (e : JsError) (metadataPath : Option String) (metadataRead : Except JsError Unit)
    (rules : List (String × RuleFun (Option Manifest)))
    (hvalid : validateInputs fsi buildPath = .ok ()) :
    validate now fsi buildPath (.error e) metadataPath metadataRead rules
      = .ok { results := [systemCriticalResult now (wrapExtractError e)]
              summary := generateSummary [systemCriticalResult now (wrapExtractError e)]
                buildPath now (rules.map Prod.fst) } ∧
    (systemCriticalResult now (wrapExtractError e)).severity = SEVERITY_CRITICAL ∧
    strContains (systemCriticalResult now (wrapExtractError e)).message e.message = true ∧
    (systemCriticalResult now (wrapExtractError e)).details
      = some (wrapExtractError e).stack := by
  refine ⟨?_, rfl, ?_, rfl⟩
  · unfold validate
    rw [hvalid]
    rfl
  · show strContains ("Validation failed: "
      ++ ("Failed to parse build artifacts: " ++ e.message)) e.message = true
    rw [← String.append_assoc]
    exact strContains_append _ _

/-- Witness for the amended C1 at a concrete app-bundle path and a
concrete extraction error. -/
theorem validate_extraction_failure_witness :
    validate witnessNow ⟨true, true, false⟩ "Sample.app" (.error (mkJsError "boom")) none
        (.ok ()) []
      = .ok { results := [systemCriticalResult witnessNow (wrapExtractError (mkJsError "boom"))]
              summary := generateSummary
                [systemCriticalResult witnessNow (wrapExtractError (mkJsError "boom"))]
                "Sample.app" witnessNow [] } ∧
    (systemCriticalResult witnessNow (wrapExtractError (mkJsError "boom"))).severity
      = SEVERITY_CRITICAL ∧
    strContains (systemCriticalResult witnessNow (wrapExtractError (mkJsError "boom"))).message
      (mkJsError "boom").message = true ∧
    (systemCriticalResult witnessNow (wrapExtractError (mkJsError "boom"))).details
      = some (wrapExtractError (mkJsError "boom")).stack :=
  validate_extraction_failure witnessNow ⟨true, true, false⟩ "Sample.app" (mkJsError "boom")
    none (.ok ()) [] rfl

theorem exitCode_ne_zero_iff (results : List ValidationResult) (failOn : String) :
    exitCode results failOn ≠ 0 ↔
      ∃ r ∈ results, getSeverityLevel failOn ≤ getSeverityLevel r.severity := by
  unfold exitCode
  by_cases h : hasFailures results failOn = true
  · rw [if_pos h]
    unfold hasFailures at h
    rw [List.any_eq_true] at h
    simp only [decide_eq_true_eq] at h
    exact ⟨fun _ => h, fun _ => one_ne_zero⟩
  · rw [if_neg h]
    constructor
    · intro hz; exact absurd rfl hz
    · rintro ⟨r, hr, hle⟩
      exfalso
      apply h
      unfold hasFailures
      rw [List.any_eq_true]
      exact ⟨r, hr, by simpa using hle⟩

/-- Claim C6: the exit signal is zero iff no finding is at or above the
threshold; with threshold high it is nonzero iff some Critical or High
finding exists, and with threshold critical only Critical findings count. -/
theorem exitCode_thresholds (results : List ValidationResult)
    (hvalid : ∀ r ∈ results,
      r.severity = SEVERITY_CRITICAL ∨ r.severity = SEVERITY_HIGH ∨
      r.severity = SEVERITY_MEDIUM ∨ r.severity = SEVERITY_LOW ∨
      r.severity = SEVERITY_INFO) :
    (∀ failOn : String, (exitCode results failOn = 0 ↔
      ∀ r ∈ results, getSeverityLevel r.severity < getSeverityLevel failOn)) ∧
    (exitCode results "high" ≠ 0 ↔
      ∃ r ∈ results, r.severity = SEVERITY_CRITICAL ∨ r.severity = SEVERITY_HIGH) ∧
    (exitCode results "critical" ≠ 0 ↔ ∃ r ∈ results, r.severity = SEVERITY_CRITICAL) := by
  refine ⟨?_, ?_, ?_⟩
  · intro failOn
    rw [← not_iff_not, ← ne_eq, exitCode_ne_zero_iff]
    push_neg
    constructor
    · rintro ⟨r, hr, hle⟩
      exact ⟨r, hr, by omega⟩
    · rintro ⟨r, hr, hlt⟩
      exact ⟨r, hr, by omega⟩
  · rw [exitCode_ne_zero_iff]
    constructor
    · rintro ⟨r, hr, hle⟩
      refine ⟨r, hr, ?_⟩
      rcases hvalid r hr with h | h | h | h | h <;> rw [h] at hle ⊢
      · exact Or.inl rfl
      · exact Or.inr rfl
      · exact absurd hle (by decide)
      · exact absurd hle (by decide)
      · exact absurd hle (by decide)
    · rintro ⟨r, hr, h | h⟩ <;> exact ⟨r, hr, by rw [h]; decide⟩
  · rw [exitCode_ne_zero_iff]
    constructor
    · rintro ⟨r, hr, hle⟩
      refine ⟨r, hr, ?_⟩
      rcases hvalid r hr with h | h | h | h | h <;> rw [h] at hle ⊢
      · exact absurd hle (by decide)
      · exact absurd hle (by decide)
      · exact absurd hle (by decide)
      · exact absurd hle (by decide)
    · rintro ⟨r, hr, h⟩
      exact ⟨r, hr, by rw [h]; decide⟩

/-- Witness for C6 on a concrete pair of findings: one High, one Info. -/
theorem exitCode_thresholds_witness :
    (exitCode [privacyManifestMissingHigh witnessNow, privacyManifestMissingInfo witnessNow]
        "high" ≠ 0 ↔
      ∃ r ∈ [privacyManifestMissingHigh witnessNow, privacyManifestMissingInfo witnessNow],
        r.severity = SEVERITY_CRITICAL ∨ r.severity = SEVERITY_HIGH) ∧
    (exitCode [privacyManifestMissingHigh witnessNow, privacyManifestMissingInfo witnessNow]
        "critical" ≠ 0 ↔
      ∃ r ∈ [privacyManifestMissingHigh witnessNow, privacyManifestMissingInfo witnessNow],
        r.severity = SEVERITY_CRITICAL) :=
  ⟨(exitCode_thresholds _ (by decide)).2.1, (exitCode_thresholds _ (by decide)).2.2⟩

theorem filterMapExt {σ τ : Type} {p q : σ → Option τ} (hpq : ∀ x, p x = q x) :
    ∀ xs : List σ, xs.filterMap p = xs.filterMap q
  | [] => rfl
  | x :: xs => by rw [List.filterMap_cons, List.filterMap_cons, hpq, filterMapExt hpq xs]

theorem requiredKeyFindings_natural (t1 t2 : String) (plist : Manifest) :
    (requiredKeyFindings t1 plist).map stripTs = (requiredKeyFindings t2 plist).map stripTs := by
  unfold requiredKeyFindings
  rw [List.map_filterMap, List.map_filterMap]
  apply filterMapExt
  intro k
  by_cases h : truthyProp plist k = true <;> simp [h, stripTs, missingKeyResult]

theorem bundleIdSection_natural (t1 t2 : String) (plist : Manifest) :
    (bundleIdSection t1 plist).map (List.map stripTs)
      = (bundleIdSection t2 plist).map (List.map stripTs) := by
  unfold bundleIdSection
  cases hg : getProp plist "CFBundleIdentifier" with
  | none => rfl
  | some v =>
    dsimp only
    by_cases ht : v.truthy = true
    · rw [if_pos ht, if_pos ht]
      cases hj : jsIncludes v ".." with
      | error e => rfl
      | ok dd =>
        dsimp only
        by_cases h1 : testBundleIdFormat (jsToString v) = true <;>
          by_cases h2 : jsLenGT v 255 = true <;>
            by_cases h3 : dd = true <;>
              simp [h1, h2, h3, stripTs, Except.map]
    · rw [if_neg ht, if_neg ht]

theorem shortVersionSection_natural (t1 t2 : String) (plist : Manifest) :
    (shortVersionSection t1 plist).map stripTs = (shortVersionSection t2 plist).map stripTs := by
  unfold shortVersionSection
  cases hg : getProp plist "CFBundleShortVersionString" with
  | none => rfl
  | some v =>
    dsimp only
    by_cases hc : (v.truthy && !(testVersionFormat (jsToString v))) = true
    · rw [if_pos hc, if_pos hc]
      rfl
    · rw [if_neg hc, if_neg hc]

theorem buildVersionSection_natural (t1 t2 : String) (plist : Manifest) :
    (buildVersionSection t1 plist).map stripTs = (buildVersionSection t2 plist).map stripTs := by
  unfold buildVersionSection
  cases hg : getProp plist "CFBundleVersion" with
  | none => rfl
  | some v =>
    dsimp only
    by_cases hc : (v.truthy && !(testVersionFormat (jsToString v))) = true
    · rw [if_pos hc, if_pos hc]
      rfl
    · rw [if_neg hc, if_neg hc]

theorem minOSSection_natural (t1 t2 : String) (plist : Manifest) :
    (minOSSection t1 plist).map stripTs = (minOSSection t2 plist).map stripTs := by
  unfold minOSSection
  cases hg : minOSVersionValue plist with
  | none => rfl
  | some v =>
    dsimp only
    by_cases ht : v.truthy = true
    · rw [if_pos ht, if_pos ht]
      by_cases h1 : optLtOpt (parseFloatQ (jsToString v))
          (parseFloatQ IOS_SUPPORT_MINIMUM_SUPPORTED) = true <;>
        by_cases h2 : optLtOpt (parseFloatQ IOS_SUPPORT_LATEST_SDK_REQUIRED)
            (parseFloatQ (jsToString v)) = true <;>
          simp [h1, h2, stripTs]
    · rw [if_neg ht, if_neg ht]

theorem displayNameSection_natural (t1 t2 : String) (plist : Manifest) :
    (displayNameSection t1 plist).map stripTs = (displayNameSection t2 plist).map stripTs := by
  unfold displayNameSection
  cases hg : getProp plist "CFBundleDisplayName" with
  | none => rfl
  | some v =>
    dsimp only
    by_cases hc : (v.truthy && jsLenGT v 30) = true
    · rw [if_pos hc, if_pos hc]
      rfl
    · rw [if_neg hc, if_neg hc]

theorem urlSchemeFindings_natural (t1 t2 : String) (t : JsValue) :
    (urlSchemeFindings t1 t).map (List.map stripTs)
      = (urlSchemeFindings t2 t).map (List.map stripTs) := by
  unfold urlSchemeFindings
  cases hg : jsGetProp t "CFBundleURLSchemes" with
  | none => rfl
  | some sv =>
    dsimp only
    by_cases ht : sv.truthy = true
    · rw [if_pos ht, if_pos ht]
      cases hi : jsIterate sv with
      | error e => rfl
      | ok schemes =>
        dsimp only
        simp only [Except.map, List.map_filterMap]
        refine congrArg Except.ok ?_
        apply filterMapExt
        intro sch
        by_cases hs : testUrlScheme (jsToString sch) = true <;> simp [hs, stripTs]
    · rw [if_neg ht, if_neg ht]

theorem fileSharingSection_natural (t1 t2 : String) (plist : Manifest) :
    (fileSharingSection t1 plist).map stripTs = (fileSharingSection t2 plist).map stripTs := by
  unfold fileSharingSection
  cases hg : getProp plist "UIFileSharingEnabled" with
  | none => rfl
  | some v =>
    cases v with
    | vBool b => cases b <;> rfl
    | vStr s => rfl
    | vNum n => rfl
    | vArr l => rfl
    | vDict d => rfl

theorem dtxcodeSection_natural (t1 t2 : String) (plist : Manifest) :
    (dtxcodeSection t1 plist).map stripTs = (dtxcodeSection t2 plist).map stripTs := by
  unfold dtxcodeSection
  by_cases hc : truthyProp plist "DTXcode" = true
  · rw [if_pos hc, if_pos hc]
    rfl
  · rw [if_neg hc, if_neg hc]

theorem capabilitiesSection_natural (t1 t2 : String) (plist : Manifest) :
    (capabilitiesSection t1 plist).map (List.map stripTs)
      = (capabilitiesSection t2 plist).map (List.map stripTs) := by
  unfold capabilitiesSection
  cases hg : getProp plist "UIRequiredDeviceCapabilities" with
  | none => rfl
  | some v =>
    dsimp only
    by_cases ht : v.truthy = true
    · rw [if_pos ht, if_pos ht]
      cases hi : jsIterate v with
      | error e => rfl
      | ok caps =>
        dsimp only
        simp only [Except.map, List.map_filterMap]
        refine congrArg Except.ok ?_
        apply filterMapExt
        intro c
        cases c <;> simp only [stripTs] <;> split <;> simp [stripTs]
    · rw [if_neg ht, if_neg ht]

theorem exceptNat_error {x y : Except String (List ValidationResult)} {e : String}
    (hnat : x.map (List.map stripTs) = y.map (List.map stripTs)) (hx : x = .error e) :
    y = .error e := by
  subst hx
  cases hy : y with
  | error e2 =>
    rw [hy] at hnat
    simp only [Except.map] at hnat
    exact congrArg Except.error (Except.error.inj hnat).symm
  | ok l =>
    rw [hy] at hnat
    simp [Except.map] at hnat

theorem exceptNat_ok {x y : Except String (List ValidationResult)}
    {l1 : List ValidationResult}
    (hnat : x.map (List.map stripTs) = y.map (List.map stripTs)) (hx : x = .ok l1) :
    ∃ l2, y = .ok l2 ∧ l1.map stripTs = l2.map stripTs := by
  subst hx
  cases hy : y with
  | error e2 =>
    rw [hy] at hnat
    simp [Except.map] at hnat
  | ok l =>
    rw [hy] at hnat
    simp only [Except.map] at hnat
    exact ⟨l, rfl, Except.ok.inj hnat⟩

theorem urlFold_natural (t1 t2 : String) (types : List JsValue)
    (acc1 acc2 : List ValidationResult) (hacc : acc1.map stripTs = acc2.map stripTs) :
    (types.foldlM (fun (acc : List ValidationResult) (t : JsValue) =>
        match urlSchemeFindings t1 t with
        | Except.error e => (Except.error e : Except String (List ValidationResult))
        | Except.ok fs => Except.ok (acc ++ fs)) acc1).map (List.map stripTs)
      = (types.foldlM (fun (acc : List ValidationResult) (t : JsValue) =>
        match urlSchemeFindings t2 t with
        | Except.error e => (Except.error e : Except String (List ValidationResult))
        | Except.ok fs => Except.ok (acc ++ fs)) acc2).map (List.map stripTs) := by
  induction types generalizing acc1 acc2 with
  | nil =>
    rw [List.foldlM_nil, List.foldlM_nil]
    simp only [Except.map]
    exact congrArg Except.ok hacc
  | cons t ts ih =>
    rw [List.foldlM_cons, List.foldlM_cons]
    have hnat := urlSchemeFindings_natural t1 t2 t
    cases h1 : urlSchemeFindings t1 t with
    | error e =>
      rw [exceptNat_error hnat h1]
      rfl
    | ok fs1 =>
      obtain ⟨fs2, h2, hfs⟩ := exceptNat_ok hnat h1
      rw [h2]
      show (ts.foldlM (fun (acc : List ValidationResult) (t : JsValue) =>
          match urlSchemeFindings t1 t with
          | Except.error e => (Except.error e : Except String (List ValidationResult))
          | Except.ok fs => Except.ok (acc ++ fs)) (acc1 ++ fs1)).map (List.map stripTs)
        = (ts.foldlM (fun (acc : List ValidationResult) (t : JsValue) =>
          match urlSchemeFindings t2 t with
          | Except.error e => (Except.error e : Except String (List ValidationResult))
          | Except.ok fs => Except.ok (acc ++ fs)) (acc2 ++ fs2)).map (List.map stripTs)
      exact ih (acc1 ++ fs1) (acc2 ++ fs2)
        (by rw [List.map_append, List.map_append, hacc, hfs])

theorem urlTypesSection_natural (t1 t2 : String) (plist : Manifest) :
    (urlTypesSection t1 plist).map (List.map stripTs)
      = (urlTypesSection t2 plist).map (List.map stripTs) := by
  unfold urlTypesSection
  cases hg : getProp plist "CFBundleURLTypes" with
  | none => rfl
  | some v =>
    dsimp only
    by_cases ht : v.truthy = true
    · rw [if_pos ht, if_pos ht]
      cases hi : jsIterate v with
      | error e => rfl
      | ok types =>
        dsimp only
        exact urlFold_natural t1 t2 types [] [] rfl
    · rw [if_neg ht, if_neg ht]

theorem infoPlistValidate_natural (t1 t2 : String) (plistOpt : Option Manifest) :
    (infoPlistValidate t1 plistOpt).map (List.map stripTs)
      = (infoPlistValidate t2 plistOpt).map (List.map stripTs) := by
  cases plistOpt with
  | none => rfl
  | some plist =>
    unfold infoPlistValidate
    dsimp only
    cases hb1 : bundleIdSection t1 plist with
    | error e =>
      rw [exceptNat_error (bundleIdSection_natural t1 t2 plist) hb1]
    | ok bid1 =>
      obtain ⟨bid2, hb2, hbid⟩ := exceptNat_ok (bundleIdSection_natural t1 t2 plist) hb1
      rw [hb2]
      dsimp only
      cases hu1 : urlTypesSection t1 plist with
      | error e =>
        rw [exceptNat_error (urlTypesSection_natural t1 t2 plist) hu1]
      | ok url1 =>
        obtain ⟨url2, hu2, hurl⟩ := exceptNat_ok (urlTypesSection_natural t1 t2 plist) hu1
        rw [hu2]
        dsimp only
        cases hc1 : capabilitiesSection t1 plist with
        | error e =>
          rw [exceptNat_error (capabilitiesSection_natural t1 t2 plist) hc1]
        | ok caps1 =>
          obtain ⟨caps2, hc2, hcaps⟩ :=
            exceptNat_ok (capabilitiesSection_natural t1 t2 plist) hc1
          rw [hc2]
          dsimp only
          simp only [Except.map, List.map_append]
          rw [requiredKeyFindings_natural t1 t2, hbid, shortVersionSection_natural t1 t2,
            buildVersionSection_natural t1 t2, minOSSection_natural t1 t2,
            displayNameSection_natural t1 t2, hurl, fileSharingSection_natural t1 t2,
            dtxcodeSection_natural t1 t2, hcaps]

theorem loadMetadataFindings_natural (t1 t2 : String) (mp : Option String)
    (mr : Except JsError Unit) :
    (loadMetadataFindings t1 mp mr).map stripTs
      = (loadMetadataFindings t2 mp mr).map stripTs := by
  unfold loadMetadataFindings
  cases mp with
  | none => rfl
  | some p =>
    cases mr with
    | ok u => rfl
    | error e => rfl

theorem runRules_sample_natural (t1 t2 : String) (ctx : Option Manifest) :
    (runValidationRules t1 (sampleRegistry t1) ctx).map stripTs
      = (runValidationRules t2 (sampleRegistry t2) ctx).map stripTs := by
  rw [runValidationRules_eq_flatMap, runValidationRules_eq_flatMap]
  unfold sampleRegistry
  simp only [List.flatMap_cons, List.flatMap_nil, List.append_nil]
  unfold ruleOutcome
  dsimp only
  unfold infoPlistRuleFun
  have hnat := infoPlistValidate_natural t1 t2 ctx
  cases h1 : infoPlistValidate t1 ctx with
  | error msg =>
    rw [exceptNat_error hnat h1]
    rfl
  | ok l1 =>
    obtain ⟨l2, h2, hl⟩ := exceptNat_ok hnat h1
    rw [h2]
    exact hl

/-- Counterexample to claim C9: the same package validated at two clock
readings one second apart yields finding sequences that are not
field-for-field equal, because every finding carries its construction
timestamp. -/
theorem validate_two_runs_counterexample :
    pipelineResults "2024-01-01T00:00:00.000Z" ⟨true, true, false⟩ "Sample.app"
        (.ok manifestMissingId) none (.ok ())
      ≠ pipelineResults "2024-01-01T00:00:01.000Z" ⟨true, true, false⟩ "Sample.app"
        (.ok manifestMissingId) none (.ok ()) := by decide

/-- Claim C9 (amended): two runs of the engine against the same immutable
package, metadata and registry differ at most in the timestamp fields of
their findings: erasing timestamps makes the ordered finding sequences of
the two runs identical, whatever the two clock readings were. -/
theorem validate_deterministic_modulo_timestamp (fsi : BuildPathInfo) (buildPath : String)
    (extract : Except JsError Manifest) (metadataPath : Option String)
    (metadataRead : Except JsError Unit) (t1 t2 : String) :
    (pipelineResults t1 fsi buildPath extract metadataPath metadataRead).map stripTs
      = (pipelineResults t2 fsi buildPath extract metadataPath metadataRead).map stripTs := by
  unfold pipelineResults resultsOfReport validate
  cases hv : validateInputs fsi buildPath with
  | error e => rfl
  | ok u =>
    dsimp only
    cases hx : parseBuildArtifacts extract with
    | error e => rfl
    | ok m =>
      dsimp only
      simp only [List.map_append]
      rw [loadMetadataFindings_natural t1 t2, runRules_sample_natural t1 t2]
